import Mathlib

/-!
Verification development for the `sarracen` SPH interpolation module
(`sarracen/interpolate.py`).

Modelling conventions:

* Machine floating-point numbers are modelled by exact rationals (`ℚ`).
  All concrete inputs used in the closed theorems below are small dyadic
  rationals, on which the corresponding IEEE-754 double computations in the
  source are exact, so the model agrees with the source on those inputs.
* A particle row is a `Particle` record: the two selected position columns,
  the mass, density and smoothing-length columns, and the selected target
  column.  Column-name resolution is the job of the external dataframe
  component and is performed before the record is built.
* The smoothing kernel is the external `BaseKernel` boundary: an abstract
  record carrying `radkernel`, `ndims` and the evaluated weight.  The source
  always calls `kernel.w(np.sqrt(q2))`; the model absorbs that square root
  into the abstract kernel boundary and stores `w2 q2 = w (sqrt q2)`, a pure
  function of the squared dimensionless distance.
* `np.sqrt` as it appears outside the kernel call is modelled by `sqrtQ`,
  which is exact whenever its argument is the square of a rational (the only
  situation exercised by the concrete theorems; IEEE sqrt is exact there).
* The sign behaviour of float division (`x/0 = ±inf`, `0/0 = NaN`) matters
  for the `weight <= 0` skip test, so that test is modelled by `fdivLE0`,
  which reproduces the result of the IEEE comparison exactly.  The numeric
  *value* of a division by zero is not representable in `ℚ`; no theorem
  below depends on such a value.
* `raise ValueError(...)` is modelled by `Except.error` with one constructor
  per distinct validation message; `isInvalidParameter` groups the
  constructors that the specification classifies as InvalidParameter, and
  `.dimensionMismatch` is the specification's DimensionMismatch.  A pandas
  `KeyError` raised by a failed integer-label lookup is `.keyError`.
* The output image is a total function `ℤ → ℤ → ℚ` (row, column); the
  1-d cross-section output is `ℤ → ℚ`.  Cells never written keep their
  `np.zeros` value `0`.
-/

/-- One row of the particle dataframe, with the caller's column selections
already resolved: positions `x`, `y`, mass `m`, density `rho`, smoothing
length `h`, and the target scalar `target`. -/
structure Particle where
  x : ℚ
  y : ℚ
  m : ℚ
  rho : ℚ
  h : ℚ
  target : ℚ
deriving DecidableEq

/-- The external kernel boundary (`BaseKernel`): compact-support multiplier
`radkernel`, declared dimensionality `ndims`, and the evaluated weight
`w2 q2 = w (sqrt q2)` as a function of the squared dimensionless distance. -/
structure Kernel where
  w2 : ℚ → ℚ
  radkernel : ℚ
  ndims : ℕ

/-- The error outcomes of the two entry points.  The first four constructors
are the `ValueError`s of `interpolate2D`'s parameter validation, the next two
are `interpolate2DCross`'s validation errors, `dimensionMismatch` is the
kernel-dimensionality `ValueError` of either entry point, and `keyError` is a
pandas `KeyError` from a failed integer-label lookup. -/
inductive InterpError where
  | pixwidthxNonpos
  | pixwidthyNonpos
  | pixcountxNonpos
  | pixcountyNonpos
  | zeroLengthCross
  | pixcountNonpos
  | dimensionMismatch
  | keyError
deriving DecidableEq

/-- Whether an error belongs to the specification's InvalidParameter class
(as opposed to DimensionMismatch or a propagated lookup failure). -/
def isInvalidParameter : InterpError → Bool
  | .pixwidthxNonpos => true
  | .pixwidthyNonpos => true
  | .pixcountxNonpos => true
  | .pixcountyNonpos => true
  | .zeroLengthCross => true
  | .pixcountNonpos => true
  | .dimensionMismatch => false
  | .keyError => false

/-- The error of a computation, if it raised one. -/
def errOf {α : Type} : Except InterpError α → Option InterpError
  | .ok _ => none
  | .error e => some e

/-- Whether a computation raised an error of the InvalidParameter class. -/
def raisesInvalidParameter {α : Type} : Except InterpError α → Bool
  | .ok _ => false
  | .error e => isInvalidParameter e

/-- Sign model of an IEEE float division compared against zero: whether the
float quotient `num/den` satisfies `num/den ≤ 0`.  For `den ≠ 0` this is the
exact-arithmetic comparison; for `den = 0` the float quotient is `-inf`
(comparison true) when `num < 0`, and `+inf` or `NaN` (comparison false)
otherwise. -/
def fdivLE0 (num den : ℚ) : Bool :=
  if den = 0 then decide (num < 0) else decide (num / den ≤ 0)

/-- `np.rint`: round to the nearest integer, ties to the nearest even
integer. -/
def rintQ (q : ℚ) : ℤ :=
  if q - (⌊q⌋ : ℚ) < 1/2 then ⌊q⌋
  else if 1/2 < q - (⌊q⌋ : ℚ) then ⌊q⌋ + 1
  else if ⌊q⌋ % 2 = 0 then ⌊q⌋ else ⌊q⌋ + 1

/-- Model of `np.sqrt` on nonnegative rationals, exact whenever the argument
is the square of a rational (where IEEE sqrt is also exact); a nonnegative
approximation elsewhere. -/
def sqrtQ (q : ℚ) : ℚ := (Nat.sqrt q.num.toNat : ℚ) / (Nat.sqrt q.den : ℚ)

/-- `np.isclose` with its default tolerances: `|a - b| ≤ 1e-8 + 1e-5 * |b|`. -/
def iscloseQ (a b : ℚ) : Bool :=
  decide (|a - b| ≤ 1/100000000 + (1/100000) * |b|)

/-- `Series.clip(lower, upper)`: `min (max v lower) upper`. -/
def clipQ (v lo hi : ℚ) : ℚ := min (max v lo) hi

/-- `range a b` over machine integers, as the ascending list
`[a, a+1, ..., b-1]`; `intRangeAux a n` is `range a (a+n)`. -/
def intRangeAux (a : ℤ) : ℕ → List ℤ
  | 0 => []
  | n + 1 => intRangeAux a n ++ [a + n]

/-- Python's `range(a, b)` (also `np.arange(a, b)` on integers). -/
def intRange (a b : ℤ) : List ℤ := intRangeAux a (b - a).toNat

/-! ## `interpolate2D` (the grid interpolator) -/

/-- The per-particle dimensionless weight `m / (rho * h ** 2)`. -/
def weight2D (p : Particle) : ℚ := p.m / (p.rho * p.h ^ 2)

/-- The `weight <= 0` skip test of the particle loop, with IEEE division
sign semantics (`fdivLE0`). -/
def skip2D (p : Particle) : Bool := fdivLE0 p.m (p.rho * p.h ^ 2)

/-- `radkern = kernel.radkernel * particle['h']`. -/
def radkern2D (k : Kernel) (p : Particle) : ℚ := k.radkernel * p.h

/-- `term = weight * particle[target]`. -/
def term2D (p : Particle) : ℚ := weight2D p * p.target

/-- `hi21 = (1 / particle['h']) ** 2`. -/
def hi21 (p : Particle) : ℚ := (1 / p.h) ^ 2

/-- `ipixmin`, after the `< 0` clamp. -/
def ipixmin2D (k : Kernel) (pixwidthx xmin : ℚ) (p : Particle) : ℤ :=
  max (rintQ ((p.x - radkern2D k p - xmin) / pixwidthx)) 0

/-- `ipixmax`, after the `> pixcountx` clamp. -/
def ipixmax2D (k : Kernel) (pixwidthx xmin : ℚ) (pixcountx : ℤ) (p : Particle) : ℤ :=
  min (rintQ ((p.x + radkern2D k p - xmin) / pixwidthx)) pixcountx

/-- `jpixmin`, after the `< 0` clamp. -/
def jpixmin2D (k : Kernel) (pixwidthy ymin : ℚ) (p : Particle) : ℤ :=
  max (rintQ ((p.y - radkern2D k p - ymin) / pixwidthy)) 0

/-- `jpixmax`, after the `> pixcounty` clamp. -/
def jpixmax2D (k : Kernel) (pixwidthy ymin : ℚ) (pixcounty : ℤ) (p : Particle) : ℤ :=
  min (rintQ ((p.y + radkern2D k p - ymin) / pixwidthy)) pixcounty

/-- The `dx2i` buffer: `np.zeros(pixcountx)` with the entries of index range
`[ipixmin, ipixmax)` filled with the scaled squared x-distance to the pixel
centre. -/
def dx2i2D (k : Kernel) (pixwidthx xmin : ℚ) (pixcountx : ℤ) (p : Particle) (ipix : ℤ) : ℚ :=
  if ipixmin2D k pixwidthx xmin p ≤ ipix ∧ ipix < ipixmax2D k pixwidthx xmin pixcountx p then
    ((xmin + ((ipix : ℚ) + 1/2) * pixwidthx - p.x) ^ 2) * hi21 p
  else 0

/-- `ypix = ymin + (jpix + 0.5) * pixwidthy`. -/
def ypix2D (pixwidthy ymin : ℚ) (jpix : ℤ) : ℚ := ymin + ((jpix : ℚ) + 1/2) * pixwidthy

/-- `dy2 = dy * dy * hi21` for row `jpix`. -/
def dy2G (pixwidthy ymin : ℚ) (p : Particle) (jpix : ℤ) : ℚ :=
  (ypix2D pixwidthy ymin jpix - p.y) * (ypix2D pixwidthy ymin jpix - p.y) * hi21 p

/-- `image[jp][ip] += q`: point update of the output image. -/
def gridPointAdd (v : ℤ → ℤ → ℚ) (jp ip : ℤ) (q : ℚ) : ℤ → ℤ → ℚ :=
  fun j i => if j = jp ∧ i = ip then v j i + q else v j i

/-- The body of the particle loop of `interpolate2D`: the skip test, the
clamped bounding rectangle, and the double accumulation loop
`image[jpix][ipix] += term * wab`. -/
def addParticle2D (k : Kernel) (pixwidthx pixwidthy xmin ymin : ℚ)
    (pixcountx pixcounty : ℤ) (image : ℤ → ℤ → ℚ) (p : Particle) : ℤ → ℤ → ℚ :=
  if skip2D p then image
  else
    (intRange (jpixmin2D k pixwidthy ymin p) (jpixmax2D k pixwidthy ymin pixcounty p)).foldl
      (fun img jpix =>
        (intRange (ipixmin2D k pixwidthx xmin p) (ipixmax2D k pixwidthx xmin pixcountx p)).foldl
          (fun img2 ipix =>
            gridPointAdd img2 jpix ipix
              (term2D p *
                k.w2 (dx2i2D k pixwidthx xmin pixcountx p ipix + dy2G pixwidthy ymin p jpix)))
          img)
      image

/-- `interpolate2D`: parameter validation, kernel-dimensionality check, then
the particle accumulation loop over a zero-initialised image. -/
def interpolate2D (data : List Particle) (k : Kernel)
    (pixwidthx pixwidthy xmin ymin : ℚ) (pixcountx pixcounty : ℤ) :
    Except InterpError (ℤ → ℤ → ℚ) :=
  if pixwidthx ≤ 0 then .error .pixwidthxNonpos
  else if pixwidthy ≤ 0 then .error .pixwidthyNonpos
  else if pixcountx ≤ 0 then .error .pixcountxNonpos
  else if pixcounty ≤ 0 then .error .pixcountyNonpos
  else if k.ndims ≠ 2 then .error .dimensionMismatch
  else
    .ok (data.foldl (addParticle2D k pixwidthx pixwidthy xmin ymin pixcountx pixcounty)
          (fun _ _ => 0))

/-- The net change `addParticle2D` makes to one cell: the accumulated
`term * wab` inside the clamped rectangle of a non-skipped particle, `0`
elsewhere. -/
def gridDelta (k : Kernel) (pixwidthx pixwidthy xmin ymin : ℚ)
    (pixcountx pixcounty : ℤ) (p : Particle) (j i : ℤ) : ℚ :=
  if skip2D p = false ∧
      jpixmin2D k pixwidthy ymin p ≤ j ∧ j < jpixmax2D k pixwidthy ymin pixcounty p ∧
      ipixmin2D k pixwidthx xmin p ≤ i ∧ i < ipixmax2D k pixwidthx xmin pixcountx p then
    term2D p * k.w2 (dx2i2D k pixwidthx xmin pixcountx p i + dy2G pixwidthy ymin p j)
  else 0

/-- The value of the returned image at cell `(j, i)` (`0` if the call
raised). -/
def gridAt (data : List Particle) (k : Kernel) (pixwidthx pixwidthy xmin ymin : ℚ)
    (pixcountx pixcounty : ℤ) (j i : ℤ) : ℚ :=
  match interpolate2D data k pixwidthx pixwidthy xmin ymin pixcountx pixcounty with
  | .ok f => f j i
  | .error _ => 0

/-! ## `interpolate2DCross` (the cross-section interpolator)

The source computes every per-particle quantity as a pandas `Series`.
Boolean filtering (`series[mask]`) keeps the *original integer labels* of the
surviving rows, while `filter_det.to_numpy().nonzero()[0]` produces
*positions* within the weight-filtered set; the loop body then uses those
positions as labels in `ipixmin[i]`, `data[y][i]`, `term[i]`.  The model
keeps labels explicit: a filtered series is a list of `(label, particle)`
pairs and `series[i]` is `List.lookup i`, which raises `.keyError` when the
label is absent, exactly as pandas integer-label indexing does. -/

/-- The weight-sign filter `term / data[target] > 0` of a single row, with
IEEE sign semantics for the two divisions: when `rho * h ** 2 = 0` the float
`term` is `±inf` (sign of `target * m`) or `NaN`, and when `target = 0` the
quotient is `NaN`; a `NaN` comparison is false. -/
def crossWeightPass (p : Particle) : Bool :=
  if p.rho * p.h ^ 2 = 0 then
    if p.target * p.m = 0 then false else decide (0 < p.m)
  else
    if p.target = 0 then false
    else decide (0 < p.target * p.m / (p.rho * p.h ^ 2) / p.target)

/-- `gradient`: `(y2 - y1)/(x2 - x1)`, or `0` when `x2` is `np.isclose` to
`x1`. -/
def crossGradient (x1 y1 x2 y2 : ℚ) : ℚ :=
  if iscloseQ x2 x1 then 0 else (y2 - y1) / (x2 - x1)

/-- `yint = y2 - gradient * x2`. -/
def crossYint (x1 y1 x2 y2 : ℚ) : ℚ := y2 - crossGradient x1 y1 x2 y2 * x2

/-- `aa = 1 + gradient ** 2`. -/
def crossAA (x1 y1 x2 y2 : ℚ) : ℚ := 1 + crossGradient x1 y1 x2 y2 ^ 2

/-- `xlength = np.sqrt((x2 - x1) ** 2 + (y2 - y1) ** 2)`. -/
def crossXlength (x1 y1 x2 y2 : ℚ) : ℚ := sqrtQ ((x2 - x1) ^ 2 + (y2 - y1) ^ 2)

/-- `pixwidth = xlength / pixcount`. -/
def crossPixwidth (x1 y1 x2 y2 : ℚ) (pixcount : ℤ) : ℚ :=
  crossXlength x1 y1 x2 y2 / (pixcount : ℚ)

/-- `xpixwidth = (x2 - x1) / pixcount`. -/
def crossXpixwidth (x1 x2 : ℚ) (pixcount : ℤ) : ℚ := (x2 - x1) / (pixcount : ℚ)

/-- `bb = 2 * gradient * (yint - y) - 2 * x` for one particle. -/
def crossBB (x1 y1 x2 y2 : ℚ) (p : Particle) : ℚ :=
  2 * crossGradient x1 y1 x2 y2 * (crossYint x1 y1 x2 y2 - p.y) - 2 * p.x

/-- `cc = x**2 + y**2 - 2*yint*y + yint**2 - (radkernel*h)**2` for one
particle. -/
def crossCC (k : Kernel) (x1 y1 x2 y2 : ℚ) (p : Particle) : ℚ :=
  p.x ^ 2 + p.y ^ 2 - 2 * crossYint x1 y1 x2 y2 * p.y + crossYint x1 y1 x2 y2 ^ 2 -
    (k.radkernel * p.h) ^ 2

/-- The intersection discriminant `det = bb**2 - 4*aa*cc` of one particle. -/
def crossDet (k : Kernel) (x1 y1 x2 y2 : ℚ) (p : Particle) : ℚ :=
  crossBB x1 y1 x2 y2 p ^ 2 - 4 * crossAA x1 y1 x2 y2 * crossCC k x1 y1 x2 y2 p

/-- `xstart`: the entry x-coordinate of the line/circle intersection,
clipped to `[x1, x2]`. -/
def crossXstart (k : Kernel) (x1 y1 x2 y2 : ℚ) (p : Particle) : ℚ :=
  clipQ ((-crossBB x1 y1 x2 y2 p - sqrtQ (crossDet k x1 y1 x2 y2 p)) /
    (2 * crossAA x1 y1 x2 y2)) x1 x2

/-- `xend`: the exit x-coordinate, clipped to `[x1, x2]`. -/
def crossXend (k : Kernel) (x1 y1 x2 y2 : ℚ) (p : Particle) : ℚ :=
  clipQ ((-crossBB x1 y1 x2 y2 p + sqrtQ (crossDet k x1 y1 x2 y2 p)) /
    (2 * crossAA x1 y1 x2 y2)) x1 x2

/-- `rstart`: arc distance from `(x1, y1)` to the entry point. -/
def crossRstart (k : Kernel) (x1 y1 x2 y2 : ℚ) (p : Particle) : ℚ :=
  sqrtQ ((crossXstart k x1 y1 x2 y2 p - x1) ^ 2 +
    ((crossGradient x1 y1 x2 y2 * crossXstart k x1 y1 x2 y2 p + crossYint x1 y1 x2 y2) - y1) ^ 2)

/-- `rend`: arc distance from `(x1, y1)` to the exit point. -/
def crossRend (k : Kernel) (x1 y1 x2 y2 : ℚ) (p : Particle) : ℚ :=
  sqrtQ ((crossXend k x1 y1 x2 y2 p - x1) ^ 2 +
    ((crossGradient x1 y1 x2 y2 * crossXend k x1 y1 x2 y2 p + crossYint x1 y1 x2 y2) - y1) ^ 2)

/-- `ipixmin = np.rint(rstart / pixwidth).clip(lower=0, upper=pixcount)`. -/
def crossIpixmin (k : Kernel) (x1 y1 x2 y2 : ℚ) (pixcount : ℤ) (p : Particle) : ℤ :=
  min (max (rintQ (crossRstart k x1 y1 x2 y2 p / crossPixwidth x1 y1 x2 y2 pixcount)) 0) pixcount

/-- `ipixmax = np.rint(rend / pixwidth).clip(lower=0, upper=pixcount)`. -/
def crossIpixmax (k : Kernel) (x1 y1 x2 y2 : ℚ) (pixcount : ℤ) (p : Particle) : ℤ :=
  min (max (rintQ (crossRend k x1 y1 x2 y2 p / crossPixwidth x1 y1 x2 y2 pixcount)) 0) pixcount

/-- `xpix = x1 + (idx + 0.5) * xpixwidth`: the x-coordinate of pixel `idx`'s
midpoint on the line. -/
def crossXpix (x1 x2 : ℚ) (pixcount : ℤ) (idx : ℤ) : ℚ :=
  x1 + ((idx : ℚ) + 1/2) * crossXpixwidth x1 x2 pixcount

/-- `ypix = gradient * xpix + yint`. -/
def crossYpix (x1 y1 x2 y2 : ℚ) (pixcount : ℤ) (idx : ℤ) : ℚ :=
  crossGradient x1 y1 x2 y2 * crossXpix x1 x2 pixcount idx + crossYint x1 y1 x2 y2

/-- `term = data[target] * data['m'] / (data['rho'] * data['h'] ** 2)` of a
single row. -/
def crossTerm (p : Particle) : ℚ := p.target * p.m / (p.rho * p.h ^ 2)

/-- One iteration of the output loop:
`output[int(ipixmin[i]):int(ipixmax[i])] += wab * term[i]`, where the pixel
range comes from the looked-up row `q` of the doubly filtered series and the
positions, smoothing length and term come from the row `r` looked up in the
full-index series (in an aligned run `q = r`). -/
def crossAdd (k : Kernel) (x1 y1 x2 y2 : ℚ) (pixcount : ℤ) (q r : Particle)
    (out : ℤ → ℚ) : ℤ → ℚ :=
  fun idx =>
    if crossIpixmin k x1 y1 x2 y2 pixcount q ≤ idx ∧
        idx < crossIpixmax k x1 y1 x2 y2 pixcount q then
      out idx +
        k.w2 (((crossXpix x1 x2 pixcount idx - r.x) * (crossXpix x1 x2 pixcount idx - r.x) +
            (crossYpix x1 y1 x2 y2 pixcount idx - r.y) *
              (crossYpix x1 y1 x2 y2 pixcount idx - r.y)) * (1 / (r.h * r.h))) * crossTerm r
    else out idx

/-- The output loop `for i in filter_det.to_numpy().nonzero()[0]`: each `i`
is used as an integer *label* into the doubly filtered series (`ipixmin[i]`,
`ipixmax[i]`) and into the full-index series (`data[x][i]`, `term[i]`); a
label miss is a pandas `KeyError`. -/
def crossLoop (k : Kernel) (x1 y1 x2 y2 : ℚ) (pixcount : ℤ)
    (both : List (ℕ × Particle)) (data : List Particle) :
    List ℕ → (ℤ → ℚ) → Except InterpError (ℤ → ℚ)
  | [], out => .ok out
  | i :: rest, out =>
    match List.lookup i both, data.get? i with
    | some q, some r =>
        crossLoop k x1 y1 x2 y2 pixcount both data rest
          (crossAdd k x1 y1 x2 y2 pixcount q r out)
    | _, _ => .error .keyError

/-- The weight-filtered series: the rows passing `filter_weight`, each keyed
by its original integer label. -/
def crossSurvivors (data : List Particle) : List (ℕ × Particle) :=
  data.enum.filter (fun lp => crossWeightPass lp.2)

/-- The doubly filtered series: weight-filtered rows whose discriminant is
nonnegative, keyed by original label. -/
def crossBoth (k : Kernel) (x1 y1 x2 y2 : ℚ) (data : List Particle) :
    List (ℕ × Particle) :=
  (crossSurvivors data).filter (fun lp => decide (0 ≤ crossDet k x1 y1 x2 y2 lp.2))

/-- `filter_det.to_numpy().nonzero()[0]`: the ascending *positions*, within
the weight-filtered series, of the rows with nonnegative discriminant. -/
def crossPositions (k : Kernel) (x1 y1 x2 y2 : ℚ) (data : List Particle) : List ℕ :=
  ((crossSurvivors data).enum.filter
      (fun q => decide (0 ≤ crossDet k x1 y1 x2 y2 q.2.2))).map (fun q => q.1)

/-- `interpolate2DCross`: endpoint / pixcount / kernel validation, then the
filtered accumulation loop over a zero-initialised output. -/
def interpolate2DCross (data : List Particle) (k : Kernel)
    (x1 y1 x2 y2 : ℚ) (pixcount : ℤ) : Except InterpError (ℤ → ℚ) :=
  if iscloseQ y2 y1 && iscloseQ x2 x1 then .error .zeroLengthCross
  else if pixcount ≤ 0 then .error .pixcountNonpos
  else if k.ndims ≠ 2 then .error .dimensionMismatch
  else
    crossLoop k x1 y1 x2 y2 pixcount (crossBoth k x1 y1 x2 y2 data) data
      (crossPositions k x1 y1 x2 y2 data) (fun _ => 0)

/-! ## Concrete fixtures used by the closed theorems -/

/-- A two-dimensional test kernel with compact support radius `2`
(`w (sqrt s) = 4 - s` inside the support, `0` outside). -/
def kTest : Kernel := ⟨fun s => if s < 4 then 4 - s else 0, 2, 2⟩

/-- The same kernel declared three-dimensional. -/
def kTest3 : Kernel := ⟨fun s => if s < 4 then 4 - s else 0, 2, 3⟩

/-- A well-behaved particle at the centre of the unit pixel. -/
def pGood : Particle := ⟨1/2, 1/2, 1, 1, 1, 1⟩

/-- A particle with negative mass *and* negative density: its weight
`(-1)/((-1)*1) = 1` is positive, so the skip test does not fire. -/
def pNegBoth : Particle := ⟨1/2, 1/2, -1, -1, 1, 1⟩

/-- A particle with zero smoothing length (and positive mass and density). -/
def pZeroH : Particle := ⟨1/2, 1/2, 1, 1, 0, 1⟩

/-- A particle on the cross-section line `y = 0`, `0 ≤ x ≤ 2`, passing both
cross-section filters. -/
def pOnLine : Particle := ⟨1, 0, 1, 1, 1, 1⟩

/-- A negative-mass particle: it fails the cross-section weight filter. -/
def pNegMass : Particle := ⟨1, 0, -1, 1, 1, 1⟩

/-- A particle passing both filters of the line `y = 0`, `0 ≤ x ≤ 4`. -/
def pMid4 : Particle := ⟨2, 0, 1, 1, 1, 1⟩

/-- A negative-mass particle far from every cross-section line used below:
its support circle (radius `2`) does not meet the line `y = 0`. -/
def pFarNeg : Particle := ⟨100, 100, -1, 1, 1, 1⟩

/-- A second particle passing both filters of the line `y = 0`,
`0 ≤ x ≤ 4`. -/
def pMid4b : Particle := ⟨2, 0, 1, 1, 1, 2⟩

/-- A negative-mass particle near the line `y = 0`, `0 ≤ x ≤ 4`: it fails
the weight filter. -/
def pNegMass4 : Particle := ⟨1, 0, -1, 1, 1, 1⟩

/-- A skipped particle for the grid witness: weight `(-1)/(2*1) ≤ 0`. -/
def pSkip : Particle := ⟨1/2, 1/2, -1, 2, 1, 5⟩

/-! ## Helper lemmas -/

lemma mem_intRangeAux {j a : ℤ} {n : ℕ} : j ∈ intRangeAux a n ↔ a ≤ j ∧ j < a + n := by
  induction n with
  | zero => simp [intRangeAux]
  | succ m ih =>
    simp only [intRangeAux, List.mem_append, List.mem_singleton, ih]
    omega

lemma mem_intRange {j a b : ℤ} : j ∈ intRange a b ↔ a ≤ j ∧ j < b := by
  rw [intRange, mem_intRangeAux]
  omega

lemma intRange_empty {a b : ℤ} (h : b ≤ a) : intRange a b = [] := by
  rw [intRange, Int.toNat_eq_zero.2 (by omega : b - a ≤ 0)]
  rfl

lemma foldl_pointAux (J a : ℤ) (G : ℤ → ℚ) (n : ℕ) (v : ℤ → ℤ → ℚ) :
    (intRangeAux a n).foldl (fun v2 i => gridPointAdd v2 J i (G i)) v
      = fun j i => if j = J ∧ a ≤ i ∧ i < a + n then v j i + G i else v j i := by
  induction n with
  | zero =>
    funext j i
    simp only [intRangeAux, List.foldl_nil]
    rw [if_neg (by omega)]
  | succ m ih =>
    rw [intRangeAux, List.foldl_append, ih]
    funext j i
    simp only [List.foldl_cons, List.foldl_nil, gridPointAdd]
    by_cases h1 : j = J ∧ i = a + m
    · rw [if_pos h1, if_neg (by omega), if_pos (by push_cast; omega)]
      rw [h1.2]
    · rw [if_neg h1]
      by_cases h2 : j = J ∧ a ≤ i ∧ i < a + m
      · rw [if_pos h2, if_pos (by push_cast; omega)]
      · rw [if_neg h2, if_neg (by push_cast; omega)]

lemma foldl_point (J a b : ℤ) (G : ℤ → ℚ) (v : ℤ → ℤ → ℚ) :
    (intRange a b).foldl (fun v2 i => gridPointAdd v2 J i (G i)) v
      = fun j i => if j = J ∧ a ≤ i ∧ i < b then v j i + G i else v j i := by
  rw [intRange, foldl_pointAux]
  funext j i
  by_cases h : j = J ∧ a ≤ i ∧ i < a + (b - a).toNat
  · rw [if_pos h, if_pos (by omega)]
  · rw [if_neg h, if_neg (by omega)]

lemma foldl_rowsAux (G : ℤ → ℤ → ℚ) (ia ib ja : ℤ) (n : ℕ) (v : ℤ → ℤ → ℚ) :
    (intRangeAux ja n).foldl
        (fun w jp => (intRange ia ib).foldl (fun v2 i => gridPointAdd v2 jp i (G jp i)) w) v
      = fun j i => if ja ≤ j ∧ j < ja + n ∧ ia ≤ i ∧ i < ib then v j i + G j i else v j i := by
  induction n with
  | zero =>
    funext j i
    simp only [intRangeAux, List.foldl_nil]
    rw [if_neg (by omega)]
  | succ m ih =>
    rw [intRangeAux, List.foldl_append, ih]
    simp only [List.foldl_cons, List.foldl_nil]
    rw [foldl_point]
    funext j i
    by_cases h1 : j = ja + m ∧ ia ≤ i ∧ i < ib
    · rw [if_pos h1, if_neg (by omega), if_pos (by push_cast; omega)]
      rw [h1.1]
    · rw [if_neg h1]
      by_cases h2 : ja ≤ j ∧ j < ja + m ∧ ia ≤ i ∧ i < ib
      · rw [if_pos h2, if_pos (by push_cast; omega)]
      · rw [if_neg h2, if_neg (by push_cast; omega)]

lemma foldl_rows (G : ℤ → ℤ → ℚ) (ia ib ja jb : ℤ) (v : ℤ → ℤ → ℚ) :
    (intRange ja jb).foldl
        (fun w jp => (intRange ia ib).foldl (fun v2 i => gridPointAdd v2 jp i (G jp i)) w) v
      = fun j i => if ja ≤ j ∧ j < jb ∧ ia ≤ i ∧ i < ib then v j i + G j i else v j i := by
  refine (foldl_rowsAux G ia ib ja ((jb - ja).toNat) v).trans ?_
  funext j i
  by_cases h : ja ≤ j ∧ j < ja + ((jb - ja).toNat : ℤ) ∧ ia ≤ i ∧ i < ib
  · rw [if_pos h, if_pos (by omega)]
  · rw [if_neg h, if_neg (by omega)]

lemma addParticle2D_eq (k : Kernel) (pixwidthx pixwidthy xmin ymin : ℚ)
    (pixcountx pixcounty : ℤ) (image : ℤ → ℤ → ℚ) (p : Particle)
    (hns : skip2D p = false) :
    addParticle2D k pixwidthx pixwidthy xmin ymin pixcountx pixcounty image p
      = fun j i =>
          if jpixmin2D k pixwidthy ymin p ≤ j ∧ j < jpixmax2D k pixwidthy ymin pixcounty p ∧
              ipixmin2D k pixwidthx xmin p ≤ i ∧ i < ipixmax2D k pixwidthx xmin pixcountx p then
            image j i +
              term2D p *
                k.w2 (dx2i2D k pixwidthx xmin pixcountx p i + dy2G pixwidthy ymin p j)
          else image j i := by
  rw [addParticle2D, hns, if_neg Bool.false_ne_true]
  exact foldl_rows _ _ _ _ _ _

lemma addParticle2D_delta (k : Kernel) (pixwidthx pixwidthy xmin ymin : ℚ)
    (pixcountx pixcounty : ℤ) (image : ℤ → ℤ → ℚ) (p : Particle) :
    addParticle2D k pixwidthx pixwidthy xmin ymin pixcountx pixcounty image p
      = fun j i =>
          image j i + gridDelta k pixwidthx pixwidthy xmin ymin pixcountx pixcounty p j i := by
  cases hs : skip2D p with
  | false =>
    rw [addParticle2D_eq k pixwidthx pixwidthy xmin ymin pixcountx pixcounty image p hs]
    funext j i
    rw [gridDelta]
    by_cases hc : jpixmin2D k pixwidthy ymin p ≤ j ∧ j < jpixmax2D k pixwidthy ymin pixcounty p ∧
        ipixmin2D k pixwidthx xmin p ≤ i ∧ i < ipixmax2D k pixwidthx xmin pixcountx p
    · rw [if_pos hc, if_pos ⟨hs, hc⟩]
    · rw [if_neg hc, if_neg (fun hk => hc hk.2), add_zero]
  | true =>
    rw [addParticle2D, hs, if_pos rfl]
    funext j i
    rw [gridDelta, hs, if_neg (fun hk => Bool.noConfusion hk.1), add_zero]

lemma addParticle2D_skipped (k : Kernel) (pixwidthx pixwidthy xmin ymin : ℚ)
    (pixcountx pixcounty : ℤ) (p : Particle) (hs : skip2D p = true) (image : ℤ → ℤ → ℚ) :
    addParticle2D k pixwidthx pixwidthy xmin ymin pixcountx pixcounty image p = image := by
  rw [addParticle2D, hs, if_pos rfl]

lemma foldl_addParticle (k : Kernel) (pixwidthx pixwidthy xmin ymin : ℚ)
    (pixcountx pixcounty : ℤ) (ps : List Particle) (v : ℤ → ℤ → ℚ) :
    ps.foldl (addParticle2D k pixwidthx pixwidthy xmin ymin pixcountx pixcounty) v
      = fun j i =>
          v j i +
            ((ps.map
                (fun p => gridDelta k pixwidthx pixwidthy xmin ymin pixcountx pixcounty p j i)).sum) := by
  induction ps generalizing v with
  | nil => funext j i; simp
  | cons p t ih =>
    rw [List.foldl_cons, ih]
    funext j i
    simp only [addParticle2D_delta, List.map_cons, List.sum_cons]
    ring

lemma skip2D_of_mul_nonpos (p : Particle) (hmr : p.m * p.rho ≤ 0) (hrho : p.rho ≠ 0)
    (hh : p.h ≠ 0) : skip2D p = true := by
  have hden : p.rho * p.h ^ 2 ≠ 0 := mul_ne_zero hrho (pow_ne_zero 2 hh)
  rw [skip2D, fdivLE0, if_neg hden, decide_eq_true_eq]
  have h2 : (0 : ℚ) < p.h ^ 2 := by positivity
  rcases hrho.lt_or_lt with hneg | hpos
  · have hm : 0 ≤ p.m := by nlinarith
    have hd : p.rho * p.h ^ 2 ≤ 0 := (mul_neg_of_neg_of_pos hneg h2).le
    exact div_nonpos_iff.2 (Or.inl ⟨hm, hd⟩)
  · have hm : p.m ≤ 0 := by nlinarith
    have hd : (0 : ℚ) ≤ p.rho * p.h ^ 2 := (mul_pos hpos h2).le
    exact div_nonpos_iff.2 (Or.inr ⟨hm, hd⟩)

lemma skip2D_zeroH_posMass (p : Particle) (hh : p.h = 0) (hm : 0 < p.m) :
    skip2D p = false := by
  have hden : p.rho * p.h ^ 2 = 0 := by rw [hh]; ring
  rw [skip2D, fdivLE0, if_pos hden, decide_eq_false_iff_not]
  exact not_lt.2 hm.le

lemma addParticle2D_zeroH (k : Kernel) (pixwidthx pixwidthy xmin ymin : ℚ)
    (pixcountx pixcounty : ℤ) (p : Particle) (hh : p.h = 0) (image : ℤ → ℤ → ℚ) :
    addParticle2D k pixwidthx pixwidthy xmin ymin pixcountx pixcounty image p = image := by
  cases hs : skip2D p with
  | true => exact addParticle2D_skipped k pixwidthx pixwidthy xmin ymin pixcountx pixcounty p hs image
  | false =>
    rw [addParticle2D, hs, if_neg Bool.false_ne_true]
    have hrad : radkern2D k p = 0 := by rw [radkern2D, hh, mul_zero]
    have hj : jpixmax2D k pixwidthy ymin pixcounty p ≤ jpixmin2D k pixwidthy ymin p := by
      rw [jpixmax2D, jpixmin2D, hrad, sub_zero, add_zero]
      exact le_trans (min_le_left _ _) (le_max_left _ _)
    rw [intRange_empty hj, List.foldl_nil]

lemma interpolate2D_middle_noop (data1 data2 : List Particle) (k : Kernel)
    (pixwidthx pixwidthy xmin ymin : ℚ) (pixcountx pixcounty : ℤ) (p : Particle)
    (hnoop : ∀ image,
      addParticle2D k pixwidthx pixwidthy xmin ymin pixcountx pixcounty image p = image) :
    interpolate2D (data1 ++ p :: data2) k pixwidthx pixwidthy xmin ymin pixcountx pixcounty
      = interpolate2D (data1 ++ data2) k pixwidthx pixwidthy xmin ymin pixcountx pixcounty := by
  unfold interpolate2D
  split_ifs <;> try rfl
  congr 1
  rw [List.foldl_append, List.foldl_append, List.foldl_cons, hnoop]

lemma crossLoop_error_keyError (k : Kernel) (x1 y1 x2 y2 : ℚ) (pixcount : ℤ)
    (both : List (ℕ × Particle)) (data : List Particle) :
    ∀ (P : List ℕ) (out : ℤ → ℚ) (e : InterpError),
      crossLoop k x1 y1 x2 y2 pixcount both data P out = .error e → e = .keyError := by
  intro P
  induction P with
  | nil =>
    intro out e h
    exact absurd h (by simp [crossLoop])
  | cons i rest ih =>
    intro out e h
    rw [crossLoop] at h
    cases hl : List.lookup i both with
    | none =>
      rw [hl] at h
      cases hg : data.get? i with
      | none => rw [hg] at h; injection h with h2; exact h2.symm
      | some r => rw [hg] at h; injection h with h2; exact h2.symm
    | some q =>
      rw [hl] at h
      cases hg : data.get? i with
      | none => rw [hg] at h; injection h with h2; exact h2.symm
      | some r => rw [hg] at h; exact ih _ _ h

lemma rintQ_low (q : ℚ) (f : ℤ) (h1 : (f : ℚ) ≤ q) (h2 : q - (f : ℚ) < 1/2) :
    rintQ q = f := by
  have hf : ⌊q⌋ = f := Int.floor_eq_iff.2 ⟨h1, by linarith⟩
  rw [rintQ, hf, if_pos h2]

lemma rintQ_high (q : ℚ) (f : ℤ) (h1 : q < (f : ℚ) + 1) (h2 : 1/2 < q - (f : ℚ)) :
    rintQ q = f + 1 := by
  have hf : ⌊q⌋ = f := Int.floor_eq_iff.2 ⟨by linarith, by linarith⟩
  rw [rintQ, hf, if_neg (by linarith), if_pos h2]

lemma rintQ_tie_even (q : ℚ) (f : ℤ) (h : q - (f : ℚ) = 1/2) (he : f % 2 = 0) :
    rintQ q = f := by
  have hf : ⌊q⌋ = f := Int.floor_eq_iff.2 ⟨by linarith, by linarith⟩
  rw [rintQ, hf, if_neg (by linarith), if_neg (by linarith), if_pos he]

/-! ## Claims -/

/-- Claim C7: `interpolate2D` raises an InvalidParameter-class error if and
only if `pixwidthx ≤ 0`, `pixwidthy ≤ 0`, `pixcountx ≤ 0` or `pixcounty ≤ 0`
(each condition independently suffices); since the error is the entire
outcome of the call, no partial image is produced in that case. -/
theorem interpolate2D_invalidParameter_iff (data : List Particle) (k : Kernel)
    (pixwidthx pixwidthy xmin ymin : ℚ) (pixcountx pixcounty : ℤ) :
    raisesInvalidParameter
        (interpolate2D data k pixwidthx pixwidthy xmin ymin pixcountx pixcounty) = true
      ↔ (pixwidthx ≤ 0 ∨ pixwidthy ≤ 0 ∨ pixcountx ≤ 0 ∨ pixcounty ≤ 0) := by
  unfold interpolate2D
  split_ifs <;> simp_all [raisesInvalidParameter, isInvalidParameter]

/-- Claim C4: for every non-skipped particle, the cells changed by the
accumulation loops of `interpolate2D` are exactly the rectangle whose index
range on each axis is obtained by mapping `(position ± radkern - origin) /
pixelwidth`, rounding to the nearest integer (`rintQ`), clamping the minimum
to `≥ 0` and the maximum to `≤` the pixel count; each cell of the rectangle
is incremented by `term * w(q)` of that same particle, and when the clamped
minimum is `≥` the clamped maximum on either axis the particle contributes
nothing (the rectangle is empty). -/
theorem addParticle2D_exact_rectangle (k : Kernel) (pixwidthx pixwidthy xmin ymin : ℚ)
    (pixcountx pixcounty : ℤ) (image : ℤ → ℤ → ℚ) (p : Particle)
    (hns : skip2D p = false) :
    addParticle2D k pixwidthx pixwidthy xmin ymin pixcountx pixcounty image p
      = fun j i =>
          if max (rintQ ((p.y - k.radkernel * p.h - ymin) / pixwidthy)) 0 ≤ j ∧
              j < min (rintQ ((p.y + k.radkernel * p.h - ymin) / pixwidthy)) pixcounty ∧
              max (rintQ ((p.x - k.radkernel * p.h - xmin) / pixwidthx)) 0 ≤ i ∧
              i < min (rintQ ((p.x + k.radkernel * p.h - xmin) / pixwidthx)) pixcountx then
            image j i +
              term2D p *
                k.w2 ((((xmin + ((i : ℚ) + 1/2) * pixwidthx - p.x) ^ 2) * hi21 p) +
                  dy2G pixwidthy ymin p j)
          else image j i := by
  rw [addParticle2D_eq k pixwidthx pixwidthy xmin ymin pixcountx pixcounty image p hns]
  funext j i
  by_cases hc : jpixmin2D k pixwidthy ymin p ≤ j ∧ j < jpixmax2D k pixwidthy ymin pixcounty p ∧
      ipixmin2D k pixwidthx xmin p ≤ i ∧ i < ipixmax2D k pixwidthx xmin pixcountx p
  · rw [if_pos hc, if_pos (show max (rintQ ((p.y - k.radkernel * p.h - ymin) / pixwidthy)) 0 ≤ j ∧
        j < min (rintQ ((p.y + k.radkernel * p.h - ymin) / pixwidthy)) pixcounty ∧
        max (rintQ ((p.x - k.radkernel * p.h - xmin) / pixwidthx)) 0 ≤ i ∧
        i < min (rintQ ((p.x + k.radkernel * p.h - xmin) / pixwidthx)) pixcountx from hc)]
    rw [dx2i2D, if_pos ⟨hc.2.2.1, hc.2.2.2⟩]
  · rw [if_neg hc]
    exact (if_neg (fun hk => hc hk)).symm

/-- Claim C4 witness: the rectangle characterisation applied to the concrete
non-skipped particle `pGood` on a 1×1 unit grid. -/
theorem addParticle2D_exact_rectangle_witness :
    skip2D pGood = false ∧
      addParticle2D kTest 1 1 0 0 1 1 (fun _ _ => 0) pGood
        = fun j i =>
            if max (rintQ ((pGood.y - kTest.radkernel * pGood.h - 0) / 1)) 0 ≤ j ∧
                j < min (rintQ ((pGood.y + kTest.radkernel * pGood.h - 0) / 1)) 1 ∧
                max (rintQ ((pGood.x - kTest.radkernel * pGood.h - 0) / 1)) 0 ≤ i ∧
                i < min (rintQ ((pGood.x + kTest.radkernel * pGood.h - 0) / 1)) 1 then
              (fun _ _ => (0 : ℚ)) j i +
                term2D pGood *
                  kTest.w2 ((((0 + ((i : ℚ) + 1/2) * 1 - pGood.x) ^ 2) * hi21 pGood) +
                    dy2G 1 0 pGood j)
            else (fun _ _ => (0 : ℚ)) j i :=
  ⟨by norm_num [skip2D, fdivLE0, pGood],
    addParticle2D_exact_rectangle kTest 1 1 0 0 1 1 (fun _ _ => 0) pGood
      (by norm_num [skip2D, fdivLE0, pGood])⟩

/-- Claim C10: for every particle processed by `interpolate2D` under
validated parameters, every row index traversed by the outer loop satisfies
`0 ≤ j < pixcounty`, and every column index traversed by the inner loop —
which is also every index used to fill and read the `dx2i` buffer —
satisfies `0 ≤ i < pixcountx`, for all positions, smoothing lengths and
kernel radii. -/
theorem interpolate2D_indices_in_bounds (k : Kernel) (pixwidthx pixwidthy xmin ymin : ℚ)
    (pixcountx pixcounty : ℤ) (_hx : 0 < pixcountx) (_hy : 0 < pixcounty) (p : Particle) :
    (∀ j ∈ intRange (jpixmin2D k pixwidthy ymin p) (jpixmax2D k pixwidthy ymin pixcounty p),
        0 ≤ j ∧ j < pixcounty) ∧
      (∀ i ∈ intRange (ipixmin2D k pixwidthx xmin p) (ipixmax2D k pixwidthx xmin pixcountx p),
        0 ≤ i ∧ i < pixcountx) := by
  constructor
  · intro j hj
    rw [mem_intRange] at hj
    have hmin : (0 : ℤ) ≤ jpixmin2D k pixwidthy ymin p := le_max_right _ _
    have hmax : jpixmax2D k pixwidthy ymin pixcounty p ≤ pixcounty := min_le_right _ _
    exact ⟨le_trans hmin hj.1, lt_of_lt_of_le hj.2 hmax⟩
  · intro i hi
    rw [mem_intRange] at hi
    have hmin : (0 : ℤ) ≤ ipixmin2D k pixwidthx xmin p := le_max_right _ _
    have hmax : ipixmax2D k pixwidthx xmin pixcountx p ≤ pixcountx := min_le_right _ _
    exact ⟨le_trans hmin hi.1, lt_of_lt_of_le hi.2 hmax⟩

/-- Claim C10 witness: the bounds applied to the concrete particle `pGood`
on a 1×1 grid. -/
theorem interpolate2D_indices_in_bounds_witness :
    (0 : ℤ) < 1 ∧
      ((∀ j ∈ intRange (jpixmin2D kTest 1 0 pGood) (jpixmax2D kTest 1 0 1 pGood),
          0 ≤ j ∧ j < 1) ∧
        (∀ i ∈ intRange (ipixmin2D kTest 1 0 pGood) (ipixmax2D kTest 1 0 1 pGood),
          0 ≤ i ∧ i < 1)) :=
  ⟨by decide,
    interpolate2D_indices_in_bounds kTest 1 1 0 0 1 1 (by decide) (by decide) pGood⟩

/-- Claim C2 (amended): in `interpolate2D`, a particle with `m * rho ≤ 0`,
`rho ≠ 0` and `h ≠ 0` has weight `m/(rho*h²) ≤ 0`, is skipped, and
contributes nothing: the result is identical to the result with that
particle removed.  (As frozen — "`rho ≤ 0` or `m ≤ 0` contributes nothing" —
the claim is false: with `m < 0` and `rho < 0` the weight is positive and
the particle does contribute, see the counterexample; and with `rho = 0` the
weight is a division by zero that escapes the `weight ≤ 0` skip.) -/
theorem interpolate2D_skips_nonpositive_weight (data1 data2 : List Particle) (k : Kernel)
    (pixwidthx pixwidthy xmin ymin : ℚ) (pixcountx pixcounty : ℤ) (p : Particle)
    (hmr : p.m * p.rho ≤ 0) (hrho : p.rho ≠ 0) (hh : p.h ≠ 0) :
    interpolate2D (data1 ++ p :: data2) k pixwidthx pixwidthy xmin ymin pixcountx pixcounty
      = interpolate2D (data1 ++ data2) k pixwidthx pixwidthy xmin ymin pixcountx pixcounty :=
  interpolate2D_middle_noop data1 data2 k pixwidthx pixwidthy xmin ymin pixcountx pixcounty p
    (addParticle2D_skipped k pixwidthx pixwidthy xmin ymin pixcountx pixcounty p
      (skip2D_of_mul_nonpos p hmr hrho hh))

/-- Claim C2 witness: the skip rule applied to the concrete particle `pSkip`
(`m = -1`, `rho = 2`, `h = 1`) next to `pGood`. -/
theorem interpolate2D_skips_nonpositive_weight_witness :
    pSkip.m * pSkip.rho ≤ 0 ∧ pSkip.rho ≠ 0 ∧ pSkip.h ≠ 0 ∧
      interpolate2D ([] ++ pSkip :: [pGood]) kTest 1 1 0 0 1 1
        = interpolate2D ([] ++ [pGood]) kTest 1 1 0 0 1 1 :=
  ⟨by norm_num [pSkip], by norm_num [pSkip], by norm_num [pSkip],
    interpolate2D_skips_nonpositive_weight [] [pGood] kTest 1 1 0 0 1 1 pSkip
      (by norm_num [pSkip]) (by norm_num [pSkip]) (by norm_num [pSkip])⟩

/-- Claim C2 counterexample: `pNegBoth` has `m ≤ 0` and `rho ≤ 0` (with
`h = 1` finite and nonzero), yet its weight `(-1)/((-1)·1²) = 1` is
positive, the skip test does not fire, and on a 1×1 unit grid it contributes
`4` to the single cell, whereas the empty-data image holds `0` there — so
the output is not "identical to the output with that particle removed". -/
theorem interpolate2D_negBoth_contributes :
    pNegBoth.m ≤ 0 ∧ pNegBoth.rho ≤ 0 ∧ pNegBoth.h ≠ 0 ∧ skip2D pNegBoth = false ∧
      gridAt [pNegBoth] kTest 1 1 0 0 1 1 0 0 = 4 ∧
      gridAt [] kTest 1 1 0 0 1 1 0 0 = 0 := by
  have hskip : skip2D pNegBoth = false := by norm_num [skip2D, fdivLE0, pNegBoth]
  have hjmin : jpixmin2D kTest 1 0 pNegBoth = 0 := by
    rw [jpixmin2D,
      show ((pNegBoth.y - radkern2D kTest pNegBoth - 0) / 1 : ℚ) = -3/2 from
        by norm_num [pNegBoth, radkern2D, kTest],
      rintQ_tie_even (-3/2 : ℚ) (-2) (by norm_num) (by decide)]
    decide
  have hjmax : jpixmax2D kTest 1 0 1 pNegBoth = 1 := by
    rw [jpixmax2D,
      show ((pNegBoth.y + radkern2D kTest pNegBoth - 0) / 1 : ℚ) = 5/2 from
        by norm_num [pNegBoth, radkern2D, kTest],
      rintQ_tie_even (5/2 : ℚ) 2 (by norm_num) (by decide)]
    decide
  have himin : ipixmin2D kTest 1 0 pNegBoth = 0 := by
    rw [ipixmin2D,
      show ((pNegBoth.x - radkern2D kTest pNegBoth - 0) / 1 : ℚ) = -3/2 from
        by norm_num [pNegBoth, radkern2D, kTest],
      rintQ_tie_even (-3/2 : ℚ) (-2) (by norm_num) (by decide)]
    decide
  have himax : ipixmax2D kTest 1 0 1 pNegBoth = 1 := by
    rw [ipixmax2D,
      show ((pNegBoth.x + radkern2D kTest pNegBoth - 0) / 1 : ℚ) = 5/2 from
        by norm_num [pNegBoth, radkern2D, kTest],
      rintQ_tie_even (5/2 : ℚ) 2 (by norm_num) (by decide)]
    decide
  have h2d : interpolate2D [pNegBoth] kTest 1 1 0 0 1 1
      = .ok (addParticle2D kTest 1 1 0 0 1 1 (fun _ _ => 0) pNegBoth) := by
    rw [interpolate2D]
    norm_num [kTest]
  have hcell : addParticle2D kTest 1 1 0 0 1 1 (fun _ _ => 0) pNegBoth 0 0 = 4 := by
    rw [addParticle2D_eq kTest 1 1 0 0 1 1 (fun _ _ => 0) pNegBoth hskip]
    rw [show ((fun j i =>
        if jpixmin2D kTest 1 0 pNegBoth ≤ j ∧ j < jpixmax2D kTest 1 0 1 pNegBoth ∧
            ipixmin2D kTest 1 0 pNegBoth ≤ i ∧ i < ipixmax2D kTest 1 0 1 pNegBoth then
          (fun _ _ => (0 : ℚ)) j i +
            term2D pNegBoth * kTest.w2 (dx2i2D kTest 1 0 1 pNegBoth i + dy2G 1 0 pNegBoth j)
        else (fun _ _ => (0 : ℚ)) j i) 0 0)
      = if jpixmin2D kTest 1 0 pNegBoth ≤ 0 ∧ (0 : ℤ) < jpixmax2D kTest 1 0 1 pNegBoth ∧
            ipixmin2D kTest 1 0 pNegBoth ≤ 0 ∧ (0 : ℤ) < ipixmax2D kTest 1 0 1 pNegBoth then
          (0 : ℚ) + term2D pNegBoth * kTest.w2 (dx2i2D kTest 1 0 1 pNegBoth 0 + dy2G 1 0 pNegBoth 0)
        else (0 : ℚ) from rfl]
    rw [if_pos (by rw [hjmin, hjmax, himin, himax]; omega)]
    rw [dx2i2D, if_pos (by rw [himin, himax]; omega)]
    norm_num [term2D, weight2D, hi21, dy2G, ypix2D, pNegBoth, kTest]
  refine ⟨by norm_num [pNegBoth], by norm_num [pNegBoth], by norm_num [pNegBoth], hskip, ?_, ?_⟩
  · rw [gridAt, h2d]
    exact hcell
  · rw [gridAt, show interpolate2D [] kTest 1 1 0 0 1 1 = .ok (fun _ _ => 0) from
      by rw [interpolate2D]; norm_num [kTest]]

/-- Claim C9 (amended): in `interpolate2D`, a particle with `h = 0`, `m > 0`
and `rho > 0` has float weight `m/(rho·0) = +inf > 0`, so it is *not*
skipped (and `1/h` is likewise non-finite); but `radkern = radkernel·h = 0`
makes the rounded pixel bounds coincide, the clamped ranges are empty, and
the particle writes nothing: the returned image is identical to the image
computed without it, and no error is raised.  (As frozen the claim is false:
the non-finite values do *not* propagate into the returned image.) -/
theorem interpolate2D_zero_h_not_skipped_but_inert (data1 data2 : List Particle)
    (k : Kernel) (pixwidthx pixwidthy xmin ymin : ℚ) (pixcountx pixcounty : ℤ)
    (p : Particle) (hh : p.h = 0) (hm : 0 < p.m) (_hrho : 0 < p.rho) :
    skip2D p = false ∧
      interpolate2D (data1 ++ p :: data2) k pixwidthx pixwidthy xmin ymin pixcountx pixcounty
        = interpolate2D (data1 ++ data2) k pixwidthx pixwidthy xmin ymin pixcountx pixcounty :=
  ⟨skip2D_zeroH_posMass p hh hm,
    interpolate2D_middle_noop data1 data2 k pixwidthx pixwidthy xmin ymin pixcountx pixcounty p
      (addParticle2D_zeroH k pixwidthx pixwidthy xmin ymin pixcountx pixcounty p hh)⟩

/-- Claim C9 witness: the amended statement applied to the concrete zero-`h`
particle `pZeroH` next to `pGood` on a 1×1 unit grid. -/
theorem interpolate2D_zero_h_not_skipped_but_inert_witness :
    pZeroH.h = 0 ∧ 0 < pZeroH.m ∧ 0 < pZeroH.rho ∧
      (skip2D pZeroH = false ∧
        interpolate2D ([] ++ pZeroH :: [pGood]) kTest 1 1 0 0 1 1
          = interpolate2D ([] ++ [pGood]) kTest 1 1 0 0 1 1) :=
  ⟨rfl, by norm_num [pZeroH], by norm_num [pZeroH],
    interpolate2D_zero_h_not_skipped_but_inert [] [pGood] kTest 1 1 0 0 1 1 pZeroH
      rfl (by norm_num [pZeroH]) (by norm_num [pZeroH])⟩

/-- Claim C9 counterexample: the zero-`h` particle `pZeroH` (with `m > 0`,
`rho > 0`) is indeed not skipped, but the image returned with it present is
*identical* to the image returned without it — nothing non-finite reaches
the output, contradicting the claim's assertion that the non-finite values
propagate into the returned image. -/
theorem interpolate2D_zero_h_no_propagation :
    skip2D pZeroH = false ∧
      interpolate2D [pZeroH, pGood] kTest 1 1 0 0 1 1
        = interpolate2D [pGood] kTest 1 1 0 0 1 1 :=
  ⟨by norm_num [skip2D, fdivLE0, pZeroH],
    interpolate2D_middle_noop [] [pGood] kTest 1 1 0 0 1 1 pZeroH
      (addParticle2D_zeroH kTest 1 1 0 0 1 1 pZeroH rfl)⟩

/-- Claim C5 (amended): both entry points are deterministic — a call is a
pure function of its inputs, so two identical calls return identical
results — and `interpolate2D` is additionally order-independent: permuting
the particle collection yields an identical output image, because the image
is the pointwise sum of per-particle contributions (exact arithmetic).
(As frozen the claim also asserted order-independence of
`interpolate2DCross`; that part is false — see the counterexample — because
the output loop confuses positions with labels, so one ordering can raise a
`KeyError` while the permuted ordering succeeds.) -/
theorem interpolation_deterministic_and_grid_perm_invariant
    (ps qs : List Particle) (hperm : ps.Perm qs) (k : Kernel)
    (pixwidthx pixwidthy xmin ymin : ℚ) (pixcountx pixcounty : ℤ)
    (dcross : List Particle) (kc : Kernel) (x1 y1 x2 y2 : ℚ) (pc : ℤ) :
    interpolate2D ps k pixwidthx pixwidthy xmin ymin pixcountx pixcounty
        = interpolate2D qs k pixwidthx pixwidthy xmin ymin pixcountx pixcounty ∧
      interpolate2DCross dcross kc x1 y1 x2 y2 pc
        = interpolate2DCross dcross kc x1 y1 x2 y2 pc := by
  refine ⟨?_, rfl⟩
  unfold interpolate2D
  split_ifs <;> try rfl
  congr 1
  rw [foldl_addParticle, foldl_addParticle]
  funext j i
  congr 1
  exact (hperm.map _).sum_eq

/-- Claim C5 witness: the permutation invariance applied to the concrete
pair `pGood`, `pSkip` on a 1×1 grid, plus determinism of a concrete
cross-section call. -/
theorem interpolation_deterministic_and_grid_perm_invariant_witness :
    interpolate2D [pGood, pSkip] kTest 1 1 0 0 1 1
        = interpolate2D [pSkip, pGood] kTest 1 1 0 0 1 1 ∧
      interpolate2DCross [pMid4] kTest 0 0 4 0 4
        = interpolate2DCross [pMid4] kTest 0 0 4 0 4 :=
  interpolation_deterministic_and_grid_perm_invariant [pGood, pSkip] [pSkip, pGood]
    (List.Perm.swap pSkip pGood []) kTest 1 1 0 0 1 1 [pMid4] kTest 0 0 4 0 4

/-- Claim C5 counterexample: `[pNegMass4, pMid4b]` is a permutation of
`[pMid4b, pNegMass4]`, yet the first ordering makes `interpolate2DCross`
raise a `KeyError` (the weight-filtered particle shifts the surviving
labels off the loop's positional indices) while the permuted ordering
returns an output array — the results are not bit-identical. -/
theorem cross_permutation_changes_result :
    [pNegMass4, pMid4b].Perm [pMid4b, pNegMass4] ∧
      interpolate2DCross [pNegMass4, pMid4b] kTest 0 0 4 0 4 = .error .keyError ∧
      errOf (interpolate2DCross [pMid4b, pNegMass4] kTest 0 0 4 0 4) = none := by
  have hwA : crossWeightPass pNegMass4 = false := by
    norm_num [crossWeightPass, pNegMass4]
  have hwB : crossWeightPass pMid4b = true := by
    norm_num [crossWeightPass, pMid4b]
  have hg : crossGradient 0 0 4 0 = 0 := by
    norm_num [crossGradient, iscloseQ]
  have hyint : crossYint 0 0 4 0 = 0 := by
    rw [crossYint, hg]; ring
  have hdB : crossDet kTest 0 0 4 0 pMid4b = 16 := by
    rw [crossDet, crossBB, crossCC, crossAA, hg, hyint]
    norm_num [kTest, pMid4b]
  have hcl : (iscloseQ (0 : ℚ) 0 && iscloseQ 4 0) = false := by
    norm_num [iscloseQ]
  refine ⟨List.Perm.swap pMid4b pNegMass4 [], ?_, ?_⟩
  · have hs : crossSurvivors [pNegMass4, pMid4b] = [(1, pMid4b)] := by
      rw [crossSurvivors,
        show List.enum [pNegMass4, pMid4b] = [(0, pNegMass4), (1, pMid4b)] from rfl]
      simp [List.filter, hwA, hwB]
    have hboth : crossBoth kTest 0 0 4 0 [pNegMass4, pMid4b] = [(1, pMid4b)] := by
      rw [crossBoth, hs]
      simp [List.filter, hdB]
    have hposi : crossPositions kTest 0 0 4 0 [pNegMass4, pMid4b] = [0] := by
      rw [crossPositions, hs,
        show List.enum [((1 : ℕ), pMid4b)] = [(0, (1, pMid4b))] from rfl]
      simp [List.filter, hdB]
    rw [interpolate2DCross, if_neg (by rw [hcl]; exact Bool.false_ne_true),
      if_neg (by decide), if_neg (by decide), hboth, hposi]
    rfl
  · have hs : crossSurvivors [pMid4b, pNegMass4] = [(0, pMid4b)] := by
      rw [crossSurvivors,
        show List.enum [pMid4b, pNegMass4] = [(0, pMid4b), (1, pNegMass4)] from rfl]
      simp [List.filter, hwA, hwB]
    have hboth : crossBoth kTest 0 0 4 0 [pMid4b, pNegMass4] = [(0, pMid4b)] := by
      rw [crossBoth, hs]
      simp [List.filter, hdB]
    have hposi : crossPositions kTest 0 0 4 0 [pMid4b, pNegMass4] = [0] := by
      rw [crossPositions, hs,
        show List.enum [((0 : ℕ), pMid4b)] = [(0, (0, pMid4b))] from rfl]
      simp [List.filter, hdB]
    rw [interpolate2DCross, if_neg (by rw [hcl]; exact Bool.false_ne_true),
      if_neg (by decide), if_neg (by decide), hboth, hposi]
    rfl

/-- Claim C1: in `interpolate2DCross`, when a weight-filtered particle
precedes a particle surviving both filters, the output loop — which treats
filter *positions* as integer *labels* — looks up a label that is absent
from the doubly filtered series and the call raises a `KeyError`; the
surviving particle's pixel range is never accumulated at all, so the claimed
per-surviving-particle increments do not happen.  Here `pNegMass` (label 0)
fails the weight filter while `pOnLine` (label 1) survives both filters, and
the loop's first index `0` misses the filtered series `[(1, pOnLine)]`. -/
theorem cross_survivor_contribution_lost :
    crossWeightPass pNegMass = false ∧ crossWeightPass pOnLine = true ∧
      0 ≤ crossDet kTest 0 0 2 0 pOnLine ∧
      interpolate2DCross [pNegMass, pOnLine] kTest 0 0 2 0 2 = .error .keyError := by
  have hwA : crossWeightPass pNegMass = false := by
    norm_num [crossWeightPass, pNegMass]
  have hwB : crossWeightPass pOnLine = true := by
    norm_num [crossWeightPass, pOnLine]
  have hg : crossGradient 0 0 2 0 = 0 := by
    norm_num [crossGradient, iscloseQ]
  have hyint : crossYint 0 0 2 0 = 0 := by
    rw [crossYint, hg]; ring
  have hdB : crossDet kTest 0 0 2 0 pOnLine = 16 := by
    rw [crossDet, crossBB, crossCC, crossAA, hg, hyint]
    norm_num [kTest, pOnLine]
  have hcl : (iscloseQ (0 : ℚ) 0 && iscloseQ 2 0) = false := by
    norm_num [iscloseQ]
  have hs : crossSurvivors [pNegMass, pOnLine] = [(1, pOnLine)] := by
    rw [crossSurvivors,
      show List.enum [pNegMass, pOnLine] = [(0, pNegMass), (1, pOnLine)] from rfl]
    simp [List.filter, hwA, hwB]
  have hboth : crossBoth kTest 0 0 2 0 [pNegMass, pOnLine] = [(1, pOnLine)] := by
    rw [crossBoth, hs]
    simp [List.filter, hdB]
  have hposi : crossPositions kTest 0 0 2 0 [pNegMass, pOnLine] = [0] := by
    rw [crossPositions, hs,
      show List.enum [((1 : ℕ), pOnLine)] = [(0, (1, pOnLine))] from rfl]
    simp [List.filter, hdB]
  refine ⟨hwA, hwB, by rw [hdB]; norm_num, ?_⟩
  rw [interpolate2DCross, if_neg (by rw [hcl]; exact Bool.false_ne_true),
    if_neg (by decide), if_neg (by decide), hboth, hposi]
  rfl

/-- Claim C3: the locality property fails for `interpolate2DCross` at this
input: `pFarNeg` sits far outside the support of the line `y = 0`,
`0 ≤ x ≤ 4` (its discriminant is negative, so its support circle does not
meet the line) and therefore must contribute nothing; but with `pFarNeg`
present the call raises a `KeyError` (the weight filter removed it, shifting
the surviving labels off the loop's positional indices), while with it
removed the call succeeds — the two results are not equal. -/
theorem cross_far_particle_removal_changes_result :
    crossDet kTest 0 0 4 0 pFarNeg < 0 ∧
      interpolate2DCross [pFarNeg, pMid4] kTest 0 0 4 0 4 = .error .keyError ∧
      errOf (interpolate2DCross [pMid4] kTest 0 0 4 0 4) = none := by
  have hwA : crossWeightPass pFarNeg = false := by
    norm_num [crossWeightPass, pFarNeg]
  have hwB : crossWeightPass pMid4 = true := by
    norm_num [crossWeightPass, pMid4]
  have hg : crossGradient 0 0 4 0 = 0 := by
    norm_num [crossGradient, iscloseQ]
  have hyint : crossYint 0 0 4 0 = 0 := by
    rw [crossYint, hg]; ring
  have hdB : crossDet kTest 0 0 4 0 pMid4 = 16 := by
    rw [crossDet, crossBB, crossCC, crossAA, hg, hyint]
    norm_num [kTest, pMid4]
  have hcl : (iscloseQ (0 : ℚ) 0 && iscloseQ 4 0) = false := by
    norm_num [iscloseQ]
  refine ⟨?_, ?_, ?_⟩
  · rw [crossDet, crossBB, crossCC, crossAA, hg, hyint]
    norm_num [kTest, pFarNeg]
  · have hs : crossSurvivors [pFarNeg, pMid4] = [(1, pMid4)] := by
      rw [crossSurvivors,
        show List.enum [pFarNeg, pMid4] = [(0, pFarNeg), (1, pMid4)] from rfl]
      simp [List.filter, hwA, hwB]
    have hboth : crossBoth kTest 0 0 4 0 [pFarNeg, pMid4] = [(1, pMid4)] := by
      rw [crossBoth, hs]
      simp [List.filter, hdB]
    have hposi : crossPositions kTest 0 0 4 0 [pFarNeg, pMid4] = [0] := by
      rw [crossPositions, hs,
        show List.enum [((1 : ℕ), pMid4)] = [(0, (1, pMid4))] from rfl]
      simp [List.filter, hdB]
    rw [interpolate2DCross, if_neg (by rw [hcl]; exact Bool.false_ne_true),
      if_neg (by decide), if_neg (by decide), hboth, hposi]
    rfl
  · have hs : crossSurvivors [pMid4] = [(0, pMid4)] := by
      rw [crossSurvivors, show List.enum [pMid4] = [(0, pMid4)] from rfl]
      simp [List.filter, hwB]
    have hboth : crossBoth kTest 0 0 4 0 [pMid4] = [(0, pMid4)] := by
      rw [crossBoth, hs]
      simp [List.filter, hdB]
    have hposi : crossPositions kTest 0 0 4 0 [pMid4] = [0] := by
      rw [crossPositions, hs,
        show List.enum [((0 : ℕ), pMid4)] = [(0, (0, pMid4))] from rfl]
      simp [List.filter, hdB]
    rw [interpolate2DCross, if_neg (by rw [hcl]; exact Bool.false_ne_true),
      if_neg (by decide), if_neg (by decide), hboth, hposi]
    rfl

/-- Claim C8: `interpolate2DCross` raises an InvalidParameter-class error
when the two endpoints coincide (exact coincidence satisfies the
`np.isclose` test, giving the zero-length-cross error) and when
`pixcount ≤ 0`; the error is the whole outcome of the call, so nothing is
accumulated in either case. -/
theorem interpolate2DCross_validation_invalid_parameter (data : List Particle) (k : Kernel)
    (x1 y1 x2 y2 : ℚ) (pc : ℤ) :
    (x1 = x2 → y1 = y2 →
        interpolate2DCross data k x1 y1 x2 y2 pc = .error .zeroLengthCross) ∧
      (pc ≤ 0 →
        raisesInvalidParameter (interpolate2DCross data k x1 y1 x2 y2 pc) = true) := by
  constructor
  · intro hx hy
    have hcy : iscloseQ y2 y1 = true := by
      rw [iscloseQ, decide_eq_true_eq, hy, sub_self, abs_zero]
      positivity
    have hcx : iscloseQ x2 x1 = true := by
      rw [iscloseQ, decide_eq_true_eq, hx, sub_self, abs_zero]
      positivity
    rw [interpolate2DCross, hcy, hcx]
    rfl
  · intro hpc
    rw [interpolate2DCross]
    by_cases hco : (iscloseQ y2 y1 && iscloseQ x2 x1) = true
    · rw [if_pos hco]
      rfl
    · rw [if_neg hco, if_pos hpc]
      rfl

/-- Claim C8 witness: coincident endpoints `(1,1) = (1,1)` give the
zero-length error; `pixcount = -1` gives an InvalidParameter-class error. -/
theorem interpolate2DCross_validation_invalid_parameter_witness :
    interpolate2DCross [] kTest 1 1 1 1 5 = .error .zeroLengthCross ∧
      raisesInvalidParameter (interpolate2DCross [] kTest 0 0 4 0 (-1)) = true :=
  ⟨(interpolate2DCross_validation_invalid_parameter [] kTest 1 1 1 1 5).1 rfl rfl,
    (interpolate2DCross_validation_invalid_parameter [] kTest 0 0 4 0 (-1)).2 (by decide)⟩

/-- Claim C6 (amended): each entry point raises DimensionMismatch when
`kernel.ndims ≠ 2` *provided its earlier parameter validations pass* (for
`interpolate2D`: positive pixel widths and counts; for `interpolate2DCross`:
endpoints not `np.isclose` and `pixcount > 0`); the error is the whole
outcome of the call, so it precedes any accumulation.  Conversely, when
`kernel.ndims = 2`, neither entry point ever returns DimensionMismatch.
(As frozen the claim is false: when an earlier validation also fails, an
InvalidParameter-class error is raised instead of DimensionMismatch — see
the counterexample.) -/
theorem dimension_mismatch_after_valid_params (data : List Particle) (k : Kernel)
    (pixwidthx pixwidthy xmin ymin : ℚ) (pixcountx pixcounty : ℤ)
    (dcross : List Particle) (x1 y1 x2 y2 : ℚ) (pc : ℤ) :
    (0 < pixwidthx → 0 < pixwidthy → 0 < pixcountx → 0 < pixcounty → k.ndims ≠ 2 →
        interpolate2D data k pixwidthx pixwidthy xmin ymin pixcountx pixcounty
          = .error .dimensionMismatch) ∧
      (k.ndims = 2 →
        interpolate2D data k pixwidthx pixwidthy xmin ymin pixcountx pixcounty
          ≠ .error .dimensionMismatch) ∧
      ((iscloseQ y2 y1 && iscloseQ x2 x1) = false → 0 < pc → k.ndims ≠ 2 →
        interpolate2DCross dcross k x1 y1 x2 y2 pc = .error .dimensionMismatch) ∧
      (k.ndims = 2 →
        interpolate2DCross dcross k x1 y1 x2 y2 pc ≠ .error .dimensionMismatch) := by
  refine ⟨?_, ?_, ?_, ?_⟩
  · intro h1 h2 h3 h4 h5
    rw [interpolate2D, if_neg (not_le.2 h1), if_neg (not_le.2 h2), if_neg (not_le.2 h3),
      if_neg (not_le.2 h4), if_pos h5]
  · intro h5
    rw [interpolate2D]
    split_ifs with a b c d e
    · exact fun hcon => InterpError.noConfusion (Except.error.inj hcon)
    · exact fun hcon => InterpError.noConfusion (Except.error.inj hcon)
    · exact fun hcon => InterpError.noConfusion (Except.error.inj hcon)
    · exact fun hcon => InterpError.noConfusion (Except.error.inj hcon)
    · exact absurd h5 e
    · exact fun hcon => Except.noConfusion hcon
  · intro hv hpc h5
    rw [interpolate2DCross, if_neg (by rw [hv]; exact Bool.false_ne_true),
      if_neg (not_le.2 hpc), if_pos h5]
  · intro h5
    rw [interpolate2DCross]
    by_cases a : (iscloseQ y2 y1 && iscloseQ x2 x1) = true
    · rw [if_pos a]
      exact fun hcon => InterpError.noConfusion (Except.error.inj hcon)
    · rw [if_neg a]
      by_cases b : pc ≤ 0
      · rw [if_pos b]
        exact fun hcon => InterpError.noConfusion (Except.error.inj hcon)
      · rw [if_neg b, if_neg (fun hk => hk h5)]
        intro hcon
        exact InterpError.noConfusion
          (crossLoop_error_keyError k x1 y1 x2 y2 pc (crossBoth k x1 y1 x2 y2 dcross) dcross
            (crossPositions k x1 y1 x2 y2 dcross) (fun _ => 0) .dimensionMismatch hcon)

/-- Claim C6 witness: the amended statement applied to concrete calls with a
three-dimensional kernel (raising DimensionMismatch once the other
validations pass) and a two-dimensional kernel (never raising it). -/
theorem dimension_mismatch_after_valid_params_witness :
    interpolate2D [] kTest3 1 1 0 0 1 1 = .error .dimensionMismatch ∧
      interpolate2D [] kTest 1 1 0 0 1 1 ≠ .error .dimensionMismatch ∧
      interpolate2DCross [] kTest3 0 0 4 0 4 = .error .dimensionMismatch ∧
      interpolate2DCross [] kTest 0 0 4 0 4 ≠ .error .dimensionMismatch :=
  ⟨(dimension_mismatch_after_valid_params [] kTest3 1 1 0 0 1 1 [] 0 0 4 0 4).1
      (by norm_num) (by norm_num) (by decide) (by decide) (by decide),
    (dimension_mismatch_after_valid_params [] kTest 1 1 0 0 1 1 [] 0 0 4 0 4).2.1 rfl,
    (dimension_mismatch_after_valid_params [] kTest3 1 1 0 0 1 1 [] 0 0 4 0 4).2.2.1
      (by norm_num [iscloseQ]) (by decide) (by decide),
    (dimension_mismatch_after_valid_params [] kTest 1 1 0 0 1 1 [] 0 0 4 0 4).2.2.2 rfl⟩

/-- Claim C6 counterexample: with `kernel.ndims = 3` *and* an invalid
`pixwidthx = -1`, `interpolate2D` raises the InvalidParameter-class
`pixwidthx` error, not DimensionMismatch — the frozen claim's "raises a
DimensionMismatch error when kernel.ndims != 2" fails at this input. -/
theorem invalid_width_masks_dimension_mismatch :
    kTest3.ndims ≠ 2 ∧
      interpolate2D [] kTest3 (-1) 1 0 0 1 1 = .error .pixwidthxNonpos ∧
      isInvalidParameter .pixwidthxNonpos = true :=
  ⟨by decide, by rw [interpolate2D, if_pos (by norm_num)], rfl⟩
